import Mathlib

/-!
Shallow embedding of the `AuthService` class of `src/example/src/Home.tsx`
(the OAuth2-with-PKCE client core of the react-oauth2 package), together with
theorems settling the specification claims about it.

Modelling conventions:
* JavaScript strings are `String` (or `List Char` for the URL-manipulating
  helpers, which work character by character).
* Machine time (`new Date().getTime()`) is an explicit `now : Int` parameter
  (milliseconds).
* `window.localStorage` is modelled by the `Storage` structure: the class only
  ever uses the three prefixed keys `pkce`, `auth` and `preAuthUri`, which
  become the three fields (the configured key prefix is an injective renaming
  of keys and is dropped from the model).
* The JSON values parsed from token responses are modelled by `AuthTokens`
  with `Option` fields; an absent field is `none`.  Arithmetic on an absent
  number (JS `NaN`, which serialises back to an absent value through
  `JSON.stringify`/`JSON.parse`) is also modelled as `none`.
* `fetch` is an oracle argument `net : Option Response`: `none` is a network
  failure (the promise rejects), `some r` a delivered HTTP response whose
  `body` is `none` exactly when `response.json()` would reject (unparsable
  body).  The class never reads `r.status` — neither does the source.
* Timers: `window.setTimeout` hands out fresh positive numeric ids; the set of
  currently pending timers is the `pendingTimers` list of `JsState`, and the
  instance field `this.timeout` is `JsState.timeout`.  `clearTimeout id`
  removes `id` from the pending list.
* Navigation calls (`location.replace`, `location.reload`) are recorded in the
  `nav` log; `history.replaceState` rewrites `href` in place.  Callbacks that
  were already queued may still run after a navigation request in the
  single-threaded event model.
-/

/-- Truthiness of an optional JS string: `undefined` and `""` are falsy. -/
def jsTruthyStr : Option String → Bool
  | none => false
  | some t => !t.isEmpty

/-- Truthiness of an optional JS number: `undefined` (and `NaN`, modelled as
`none`) and `0` are falsy. -/
def jsTruthyInt : Option Int → Bool
  | none => false
  | some n => n != 0

/-- Truthiness of the optional numeric timer handle `this.timeout`. -/
def jsTruthyNat : Option Nat → Bool
  | none => false
  | some n => n != 0

/-- JavaScript `String.prototype.split` with a one-character separator:
splits at every occurrence, so `splitOnChar c s` always has one more entry
than `s` has occurrences of `c`, and `splitOnChar c [] = [[]]`. -/
def splitOnChar (c : Char) : List Char → List (List Char)
  | [] => [[]]
  | x :: xs =>
    if x = c then [] :: splitOnChar c xs
    else
      match splitOnChar c xs with
      | [] => [[x]]
      | y :: ys => (x :: y) :: ys

/-- JavaScript `Array.prototype.join` with a one-character separator. -/
def joinWith (c : Char) : List (List Char) → List Char
  | [] => []
  | [x] => x
  | x :: y :: ys => x ++ c :: joinWith c (y :: ys)

/-- Value of a hexadecimal digit. -/
def hexVal (c : Char) : Option Nat :=
  if '0' ≤ c ∧ c ≤ '9' then some (c.toNat - '0'.toNat)
  else if 'a' ≤ c ∧ c ≤ 'f' then some (c.toNat - 'a'.toNat + 10)
  else if 'A' ≤ c ∧ c ≤ 'F' then some (c.toNat - 'A'.toNat + 10)
  else none

/-- The `decodeURIComponent` primitive (an out-of-scope helper contract in the
spec), modelled at the single-byte level: a valid `%hh` escape becomes the
character with that code, everything else passes through unchanged. -/
def percentDecode : List Char → List Char
  | '%' :: h :: l :: rest =>
    match hexVal h, hexVal l with
    | some a, some b => Char.ofNat (16 * a + b) :: percentDecode rest
    | _, _ => '%' :: percentDecode (h :: l :: rest)
  | c :: rest => c :: percentDecode rest
  | [] => []

/-- `AuthServiceProps` (the configuration record of `Home.tsx`).  The
`location` object and the `localStoragePrefix` key renaming live outside the
model (see the module docstring). -/
structure AuthServiceProps where
  clientId : String
  clientSecret : Option String := none
  contentType : Option String := none
  provider : String
  authorizeEndpoint : Option String := none
  tokenEndpoint : Option String := none
  logoutEndpoint : Option String := none
  audience : Option String := none
  redirectUri : Option String := none
  scopes : List String := []
  prompts : Option (List String) := none
  autoRefresh : Option Bool := none
  refreshSlack : Option Int := none
  deriving Repr, DecidableEq

/-- The `AuthTokens` record, as parsed from a token-endpoint JSON response and
persisted under the `auth` key.  Every field is optional because the source
parses untyped JSON (`json as AuthTokens`). -/
structure AuthTokens where
  id_token : Option String := none
  access_token : Option String := none
  refresh_token : Option String := none
  expires_in : Option Int := none
  expires_at : Option Int := none
  token_type : Option String := none
  deriving Repr, DecidableEq

/-- The `PKCECodePair` produced by `createPKCECodes` (from `pkce.ts`), as
stored under the `pkce` key. -/
structure PKCECodePair where
  codeVerifier : String
  codeChallenge : String
  deriving Repr, DecidableEq

/-- The three prefixed `localStorage` keys the class uses.  Values are stored
JSON-decoded (serialisation round-trips are identities in this model). -/
structure Storage where
  pkce : Option PKCECodePair := none
  auth : Option AuthTokens := none
  preAuthUri : Option String := none
  deriving Repr, DecidableEq

/-- An HTTP response delivered to `fetch`: `body = none` models a body that
`response.json()` fails to parse.  The source never inspects `status`. -/
structure Response where
  status : Nat := 200
  body : Option AuthTokens := none
  deriving Repr, DecidableEq

/-- The ways a `fetchToken` promise can reject in the source: `getPkce`
throwing, the `fetch` promise rejecting, `response.json()` rejecting, or the
final `getAuthTokens()` throwing. -/
inductive FetchErr where
  | pkceNotFound
  | networkError
  | parseError
  | authNotFound
  deriving Repr, DecidableEq

/-- Navigation requests issued through `window.location` / `window.history`. -/
inductive NavAction where
  | replaceUri (uri : String)
  | logoutRedirect
  | reload
  deriving Repr, DecidableEq

/-- The mutable browser state an `AuthService` instance interacts with. -/
structure JsState where
  storage : Storage
  href : List Char
  timeout : Option Nat := none
  pendingTimers : List (Nat × String × Int) := []
  nextTimerId : Nat := 1
  nav : List NavAction := []
  deriving Repr, DecidableEq

/-- `AuthService.getCodeFromLocation`: split the URL on `?`, take the segment
after the first `?`, split it on `&`, and return the decoded `value` of the
first pair whose `=`-split head is `code`.  Mirrors the JS destructuring
`const [key, value] = pair.split('=')` (everything after a second `=` in the
pair is dropped) and `decodeURIComponent(value || '')`. -/
def findCodePair : List (List Char) → Option String
  | [] => none
  | pair :: rest =>
    let kv := splitOnChar '=' pair
    if kv.headD [] = "code".data then some (String.mk (percentDecode (kv.getD 1 [])))
    else findCodePair rest

/-- See `findCodePair`. -/
def getCodeFromLocation (href : List Char) : Option String :=
  let split := splitOnChar '?' href
  if split.length < 2 then none
  else findCodePair (splitOnChar '&' (split.getD 1 []))

/-- `AuthService.removeCodeFromLocation`: rebuild the query string without the
pairs whose `=`-split head is `code`, and drop the `?` if nothing is left.
`const [base, search] = href.split('?')` keeps only the first two segments,
and `if (!search) return` covers both a missing and an empty search string. -/
def removeCodeFromLocation (href : List Char) : List Char :=
  let parts := splitOnChar '?' href
  let base := parts.headD []
  match parts.getD 1 [] with
  | [] => href
  | search =>
    let newSearch :=
      joinWith '&'
        ((((splitOnChar '&' search).map (splitOnChar '=')).filter
            (fun kv => !(kv.headD [] == "code".data))).map (joinWith '='))
    base ++ (if newSearch.isEmpty then [] else '?' :: newSearch)

/-- `AuthService.isAuthenticated`: the `auth` key is present. -/
def isAuthenticated (s : JsState) : Bool :=
  s.storage.auth.isSome

/-- `AuthService.isPending`: the `pkce` key is present and no `auth` key is. -/
def isPending (s : JsState) : Bool :=
  s.storage.pkce.isSome && !(isAuthenticated s)

/-- `AuthService.setAuthTokens`: stamp `expires_at = now + (expires_in +
refreshSlack) * 1000` (slack defaulting to 5 seconds) onto the parsed record
and persist it under `auth`.  An absent `expires_in` makes the sum `NaN`,
i.e. an absent `expires_at` in the model. -/
def setAuthTokens (props : AuthServiceProps) (now : Int) (auth : AuthTokens)
    (st : Storage) : Storage :=
  let slack := props.refreshSlack.getD 5
  let ea : Option Int := auth.expires_in.map (fun e => now + (e + slack) * 1000)
  { st with auth := some { auth with expires_at := ea } }

/-- `AuthService.armRefreshTimer`: `clearTimeout(this.timeout)` when the
handle is truthy, then schedule a fresh one-shot timer and remember its id. -/
def armRefreshTimer (refreshToken : String) (timeoutDuration : Int)
    (s : JsState) : JsState :=
  let cleared :=
    if jsTruthyNat s.timeout then
      s.pendingTimers.filter (fun e => e.1 != s.timeout.getD 0)
    else s.pendingTimers
  { s with
    pendingTimers := cleared ++ [(s.nextTimerId, refreshToken, timeoutDuration)],
    timeout := some s.nextTimerId,
    nextTimerId := s.nextTimerId + 1 }

/-- `AuthService.startTimer`: do nothing unless authenticated with truthy
`expires_at` and `refresh_token`; then either arm the refresh timer
(`timeout > 0`) or drop the stale record and strip any stray code. -/
def startTimer (_props : AuthServiceProps) (now : Int) (s : JsState) : JsState :=
  if !(isAuthenticated s) then s
  else
    match s.storage.auth with
    | none => s
    | some a =>
      if !(jsTruthyInt a.expires_at) || !(jsTruthyStr a.refresh_token) then s
      else
        let expiresAt := a.expires_at.getD 0
        let refreshToken := a.refresh_token.getD ""
        let timeoutMs := expiresAt - now
        if timeoutMs > 0 then armRefreshTimer refreshToken timeoutMs s
        else
          { s with
            storage := { s.storage with auth := none },
            href := removeCodeFromLocation s.href }

/-- The part of `AuthService.fetchToken` after `await fetch(...)` resolved
with `resp`: remove the `pkce` key, parse the body, carry the request's
refresh token forward into a refresh response with a falsy `refresh_token`,
persist via `setAuthTokens`, start the timer when `autoRefresh` (defaulted to
`true` here) and return `getAuthTokens()`. -/
def fetchTokenResume (props : AuthServiceProps) (now : Int)
    (payloadRefresh : Option String) (isRefresh : Bool) (resp : Response)
    (s : JsState) : JsState × Except FetchErr AuthTokens :=
  let s1 := { s with storage := { s.storage with pkce := none } }
  match resp.body with
  | none => (s1, Except.error FetchErr.parseError)
  | some json0 =>
    let json :=
      if isRefresh && !(jsTruthyStr json0.refresh_token) then
        { json0 with refresh_token := payloadRefresh }
      else json0
    let s2 := { s1 with storage := setAuthTokens props now json s1.storage }
    let s3 := if props.autoRefresh.getD true then startTimer props now s2 else s2
    let res : Except FetchErr AuthTokens :=
      match s3.storage.auth with
      | none => Except.error FetchErr.authNotFound
      | some a => Except.ok a
    (s3, res)

/-- `AuthService.fetchToken code isRefresh`: for a code exchange the payload
needs the stored PKCE pair (`getPkce` throws before any network traffic when
it is missing); for a refresh the payload carries `code` as `refresh_token`.
The `net` oracle then stands for the `fetch` call. -/
def fetchToken (props : AuthServiceProps) (now : Int) (code : String)
    (isRefresh : Bool) (net : Option Response) (s : JsState) :
    JsState × Except FetchErr AuthTokens :=
  if isRefresh then
    match net with
    | none => (s, Except.error FetchErr.networkError)
    | some resp => fetchTokenResume props now (some code) isRefresh resp s
  else
    match s.storage.pkce with
    | none => (s, Except.error FetchErr.pkceNotFound)
    | some _ =>
      match net with
      | none => (s, Except.error FetchErr.networkError)
      | some resp => fetchTokenResume props now none isRefresh resp s

/-- `AuthService.restoreUri`: read and delete `preAuthUri`, request navigation
to it when present, and strip the code from the current URL. -/
def restoreUri (s : JsState) : JsState :=
  let uri := s.storage.preAuthUri
  let s1 := { s with storage := { s.storage with preAuthUri := none } }
  let s2 :=
    match uri with
    | some u => { s1 with nav := s1.nav ++ [NavAction.replaceUri u] }
    | none => s1
  { s2 with href := removeCodeFromLocation s2.href }

/-- `AuthService.logout`: delete `pkce` and `auth`, then either navigate to
the provider logout page or reload.  No timer is cleared and no in-flight
exchange is aborted. -/
def logout (_props : AuthServiceProps) (shouldEndSession : Bool)
    (s : JsState) : JsState :=
  let s1 := { s with storage := { s.storage with pkce := none, auth := none } }
  if shouldEndSession then { s1 with nav := s1.nav ++ [NavAction.logoutRedirect] }
  else { s1 with nav := s1.nav ++ [NavAction.reload] }

/-- The `AuthService` constructor: scan the URL for a code; if found, run the
exchange and on success restore the pre-auth URI, on failure delete `pkce`
and `auth` and strip the code (the error is only logged).  Without a code,
start the timer when `autoRefresh` is truthy (no default here: an absent flag
is falsy). -/
def constructorModel (props : AuthServiceProps) (now : Int)
    (net : Option Response) (s : JsState) : JsState :=
  match getCodeFromLocation s.href with
  | some code =>
    let fr := fetchToken props now code false net s
    match fr.2 with
    | Except.ok _ => restoreUri fr.1
    | Except.error _ =>
      { fr.1 with
        storage := { fr.1.storage with pkce := none, auth := none },
        href := removeCodeFromLocation fr.1.href }
  | none => if props.autoRefresh.getD false then startTimer props now s else s

/-- The runtime firing the one-shot timer with id `id` whose closure captured
`refreshToken`: the fired timer leaves the pending set, then the callback of
`armRefreshTimer` runs — `fetchToken(refreshToken, true)`, then on success
either re-arm with the new `expires_at` or (stale or falsy `expires_at`)
clean up, and on rejection drop `auth` and the stray code. -/
def fireTimerCallback (props : AuthServiceProps) (now : Int)
    (net : Option Response) (id : Nat) (refreshToken : String)
    (s : JsState) : JsState :=
  let s0 := { s with pendingTimers := s.pendingTimers.filter (fun e => e.1 != id) }
  let fr := fetchToken props now refreshToken true net s0
  match fr.2 with
  | Except.ok a =>
    if !(jsTruthyInt a.expires_at) then fr.1
    else
      let timeoutMs := a.expires_at.getD 0 - now
      if timeoutMs > 0 then armRefreshTimer (a.refresh_token.getD "") timeoutMs fr.1
      else
        { fr.1 with
          storage := { fr.1.storage with auth := none },
          href := removeCodeFromLocation fr.1.href }
  | Except.error _ =>
    { fr.1 with
      storage := { fr.1.storage with auth := none },
      href := removeCodeFromLocation fr.1.href }

/-- A freshly loaded page: no timers yet, timer ids start from 1. -/
def initJsState (st : Storage) (href : List Char) : JsState :=
  { storage := st, href := href }

/-- One `armRefreshTimer` call, as a fold step over its two arguments. -/
def armStep (s : JsState) (p : String × Int) : JsState :=
  armRefreshTimer p.1 p.2 s

/-- A default configuration used by the concrete evaluations. -/
def exProps : AuthServiceProps :=
  { clientId := "app", provider := "https://issuer.example" }

/-- A stored PKCE pair used by the concrete evaluations. -/
def exPkce : PKCECodePair := { codeVerifier := "verifier", codeChallenge := "challenge" }

/-- The parse of a provider error body such as a JSON object with only an
`error` member: none of the token fields are present. -/
def exErrBody : AuthTokens := {}

/-- Page state arriving on the redirect URI with a code, pkce pair stored. -/
def exStateC1 : JsState :=
  initJsState { pkce := some exPkce } "https://app/cb?code=XYZ".data

/-- An HTTP 400 rejection whose JSON body parses fine. -/
def exRespC1 : Response := { status := 400, body := some exErrBody }

/-- Page state arriving on the redirect URI with a code, pkce pair and a
pre-auth URI stored. -/
def exStateC2 : JsState :=
  initJsState { pkce := some exPkce, preAuthUri := some "https://app/start" }
    "https://app/cb?code=XYZ".data

/-- A successful code-exchange response used by the C2 witness. -/
def exRespC2ok : Response :=
  { status := 200,
    body := some { access_token := some "at1", refresh_token := some "r1",
                   expires_in := some 3600 } }

/-- The record `exRespC2ok` ends up persisting when exchanged at time 0. -/
def exAuthC2 : AuthTokens :=
  { access_token := some "at1", refresh_token := some "r1",
    expires_in := some 3600, expires_at := some 3605000 }

/-- A refresh response that omits `refresh_token`. -/
def exRespC6 : Response := { body := some { access_token := some "at2" } }

/-- The record persisted from `exRespC6` when refreshing with `RT`. -/
def exAuthC6 : AuthTokens := { access_token := some "at2", refresh_token := some "RT" }

/-- A stale record whose `expires_at` is the falsy number 0. -/
def exAuthC7 : AuthTokens := { refresh_token := some "r", expires_at := some 0 }

/-- State holding `exAuthC7`. -/
def exStateC7 : JsState := initJsState { auth := some exAuthC7 } "https://app/page".data

/-- State for the C7 witness: expired record, stray code in the URL. -/
def exAuthC7w : AuthTokens := { refresh_token := some "r", expires_at := some 500 }

/-- See `exAuthC7w`. -/
def exStateC7w : JsState :=
  initJsState { auth := some exAuthC7w } "https://app/p?code=Z".data

/-- The invariant maintained by `armRefreshTimer` over the timer system: ids
start at 1, at most one timer is pending, and any pending timer is the one
the instance handle tracks. -/
def TimerInv (s : JsState) : Prop :=
  1 ≤ s.nextTimerId ∧ s.pendingTimers.length ≤ 1 ∧
  ∀ e ∈ s.pendingTimers, s.timeout = some e.1 ∧ 1 ≤ e.1

/-- A live session record: expires (with slack) at t = 10000 ms. -/
def exAuthC9 : AuthTokens :=
  { id_token := some "id0", access_token := some "at0", refresh_token := some "rt0",
    expires_in := some 3600, expires_at := some 10000, token_type := some "Bearer" }

/-- Authenticated page state before the refresh timer is armed. -/
def exStateC9 : JsState := initJsState { auth := some exAuthC9 } "https://app/home".data

/-- `startTimer` at t = 1000 arms a 9000 ms refresh timer. -/
def exArmedC9 : JsState := startTimer exProps 1000 exStateC9

/-- `logout()` right after arming. -/
def exAfterLogoutC9 : JsState := logout exProps false exArmedC9

/-- The refresh response the timer callback later receives (no rotation). -/
def exRefreshRespC9 : Response :=
  { body := some { id_token := some "id1", access_token := some "at1",
                   expires_in := some 3600, token_type := some "Bearer" } }

/-- The armed timer fires at t = 10000, after the logout. -/
def exFinalC9 : JsState :=
  fireTimerCallback exProps 10000 (some exRefreshRespC9) 1 "rt0" exAfterLogoutC9

/-- A previously authenticated session hit by a stray code redirect. -/
def exStateC10 : JsState :=
  initJsState { auth := some { access_token := some "oldtoken" } }
    "https://app/cb?code=STRAY".data

/-! ### Properties of the URL-splitting primitives -/

theorem splitOnChar_ne_nil (c : Char) (s : List Char) : splitOnChar c s ≠ [] := by
  induction s with
  | nil => simp [splitOnChar]
  | cons x xs ih =>
    by_cases hx : x = c
    · simp [splitOnChar, hx]
    · simp only [splitOnChar, if_neg hx]
      cases h : splitOnChar c xs with
      | nil => simp
      | cons y ys => simp

theorem splitOnChar_not_mem (c : Char) (s : List Char) (h : c ∉ s) :
    splitOnChar c s = [s] := by
  induction s with
  | nil => rfl
  | cons x xs ih =>
    have hx : ¬ x = c := fun he => h (he ▸ List.mem_cons_self x xs)
    have hxs : c ∉ xs := fun hm => h (List.mem_cons_of_mem x hm)
    simp only [splitOnChar, if_neg hx, ih hxs]

theorem splitOnChar_append (c : Char) (a b : List Char) (h : c ∉ a) :
    splitOnChar c (a ++ c :: b) = a :: splitOnChar c b := by
  induction a with
  | nil => simp [splitOnChar]
  | cons x xs ih =>
    have hx : ¬ x = c := fun he => h (he ▸ List.mem_cons_self x xs)
    have hxs : c ∉ xs := fun hm => h (List.mem_cons_of_mem x hm)
    have h2 : splitOnChar c (xs ++ c :: b) = xs :: splitOnChar c b := ih hxs
    show splitOnChar c (x :: (xs ++ c :: b)) = (x :: xs) :: splitOnChar c b
    simp only [splitOnChar, if_neg hx]
    rw [h2]

theorem joinWith_splitOnChar (c : Char) (s : List Char) :
    joinWith c (splitOnChar c s) = s := by
  induction s with
  | nil => rfl
  | cons x xs ih =>
    by_cases hx : x = c
    · subst hx
      simp only [splitOnChar, if_pos rfl]
      cases h : splitOnChar x xs with
      | nil => exact absurd h (splitOnChar_ne_nil x xs)
      | cons y ys =>
        rw [h] at ih
        simpa [joinWith] using ih
    · simp only [splitOnChar, if_neg hx]
      cases h : splitOnChar c xs with
      | nil => exact absurd h (splitOnChar_ne_nil c xs)
      | cons y ys =>
        rw [h] at ih
        cases ys with
        | nil => simpa [joinWith] using ih
        | cons z zs =>
          simp only [joinWith, List.cons_append] at ih ⊢
          rw [ih]

theorem map_join_filter_split (key : List Char) (params : List (List Char)) :
    (((params.map (splitOnChar '=')).filter (fun kv => !(kv.headD [] == key))).map
      (joinWith '=')) =
    params.filter (fun p => !((splitOnChar '=' p).headD [] == key)) := by
  induction params with
  | nil => rfl
  | cons p ps ih =>
    simp only [List.map_cons, List.filter_cons]
    by_cases h : (splitOnChar '=' p).head?.getD [] = key
    · simp [h]
      simpa using ih
    · simp [h, joinWith_splitOnChar]
      simpa using ih

theorem not_mem_append_cons (c x : Char) (a b : List Char) (ha : c ∉ a)
    (hx : ¬ c = x) (hb : c ∉ b) : c ∉ (a ++ x :: b) := by
  intro hm
  rcases List.mem_append.1 hm with h1 | h2
  · exact ha h1
  · rcases List.mem_cons.1 h2 with h3 | h4
    · exact hx h3
    · exact hb h4

/-- C5 (amended): for a URL with a single `?`, stripping the code rebuilds the
query from exactly the non-`code` parameter segments, kept verbatim and in
order, and drops the `?` when nothing remains. -/
theorem c5_amended (base search : List Char) (hb : '?' ∉ base)
    (hs : '?' ∉ search) (hne : search ≠ []) :
    removeCodeFromLocation (base ++ '?' :: search) =
      base ++
        (if (joinWith '&' ((splitOnChar '&' search).filter
              (fun p => !((splitOnChar '=' p).headD [] == "code".data)))).isEmpty
         then []
         else '?' :: joinWith '&' ((splitOnChar '&' search).filter
              (fun p => !((splitOnChar '=' p).headD [] == "code".data)))) := by
  unfold removeCodeFromLocation
  rw [splitOnChar_append '?' base search hb, splitOnChar_not_mem '?' search hs]
  cases search with
  | nil => exact absurd rfl hne
  | cons c cs =>
    simp only [List.getD_cons_succ, List.getD_cons_zero, List.headD_cons]
    rw [map_join_filter_split]

/-- C5 counterexample: on a URL whose query itself contains a `?` (legal in
RFC 3986 queries), `removeCodeFromLocation` truncates at the second `?`; the
parameter `x=?1` is not preserved verbatim and the `code` parameter is not
even the part that gets removed. -/
theorem c5_counterexample :
    removeCodeFromLocation ("https://a/b?x=?1&code=A".data) = ("https://a/b?x=".data) ∧
    ("https://a/b?x=".data : List Char) ≠ ("https://a/b?x=?1".data) := by
  constructor
  · rfl
  · decide

/-- C5 witness: the amended theorem applied to the specification's example. -/
theorem c5_witness :
    removeCodeFromLocation ("https://a/b?x=1&code=ABC&y=2".data) =
      ("https://a/b?x=1&y=2".data) := by
  have h := c5_amended ("https://a/b".data) ("x=1&code=ABC&y=2".data)
    (by decide) (by decide) (by decide)
  have e1 : ("https://a/b".data ++ '?' :: "x=1&code=ABC&y=2".data) =
      "https://a/b?x=1&code=ABC&y=2".data := by decide
  rw [e1] at h
  rw [h]
  decide

/-- C3 counterexample: with the query `?code=A=B` the scan returns `A`, not
`A=B` — a literal `=` inside the value is not preserved, because the JS
destructuring `const [key, value] = pair.split('=')` keeps only the first
segment after the key. -/
theorem c3_counterexample :
    getCodeFromLocation ("https://a/b?code=A=B".data) = some "A" ∧
    ("A" : String) ≠ "A=B" := by
  constructor
  · rfl
  · decide

theorem findCodePair_code_head (pair : List Char) (rest : List (List Char))
    (h : (splitOnChar '=' pair).headD [] = "code".data) :
    findCodePair (pair :: rest) =
      some (String.mk (percentDecode ((splitOnChar '=' pair).getD 1 []))) := by
  simp only [findCodePair, if_pos h]

theorem getCode_two_parts (base search : List Char) (hb : '?' ∉ base)
    (hs : '?' ∉ search) :
    getCodeFromLocation (base ++ '?' :: search) =
      findCodePair (splitOnChar '&' search) := by
  unfold getCodeFromLocation
  rw [splitOnChar_append '?' base search hb, splitOnChar_not_mem '?' search hs]
  simp

theorem not_mem_joinWith (c x : Char) (params : List (List Char)) (hx : ¬ x = c)
    (h : ∀ p ∈ params, x ∉ p) : x ∉ joinWith c params := by
  induction params with
  | nil => simp [joinWith]
  | cons p ps ih =>
    cases ps with
    | nil => simpa [joinWith] using h p (List.mem_cons_self p [])
    | cons q qs =>
      simp only [joinWith]
      intro hm
      rcases List.mem_append.1 hm with h1 | h2
      · exact h p (List.mem_cons_self p _) h1
      · rcases List.mem_cons.1 h2 with h3 | h4
        · exact hx h3
        · exact ih (fun r hr => h r (List.mem_cons_of_mem p hr)) h4

theorem splitOnChar_joinWith (c : Char) (params : List (List Char))
    (h : ∀ p ∈ params, c ∉ p) (hne : params ≠ []) :
    splitOnChar c (joinWith c params) = params := by
  induction params with
  | nil => exact absurd rfl hne
  | cons p ps ih =>
    cases ps with
    | nil =>
      show splitOnChar c p = [p]
      exact splitOnChar_not_mem c p (h p (List.mem_cons_self p []))
    | cons q qs =>
      show splitOnChar c (p ++ c :: joinWith c (q :: qs)) = p :: q :: qs
      rw [splitOnChar_append c p _ (h p (List.mem_cons_self p _)),
        ih (fun r hr => h r (List.mem_cons_of_mem p hr)) (by simp)]

theorem findCodePair_append (pre : List (List Char)) (pair : List Char)
    (post : List (List Char))
    (h : ∀ p ∈ pre, ¬((splitOnChar '=' p).headD [] = "code".data))
    (hk : (splitOnChar '=' pair).headD [] = "code".data) :
    findCodePair (pre ++ pair :: post) =
      some (String.mk (percentDecode ((splitOnChar '=' pair).getD 1 []))) := by
  induction pre with
  | nil => exact findCodePair_code_head pair post hk
  | cons p ps ih =>
    simp only [List.cons_append, findCodePair]
    rw [if_neg (h p (List.mem_cons_self p _))]
    exact ih (fun r hr => h r (List.mem_cons_of_mem p hr))

theorem all_not_mem_params (x : Char) (pre post : List (List Char))
    (pair : List Char) (hpre : ∀ p ∈ pre, x ∉ p) (hpair : x ∉ pair)
    (hpost : ∀ p ∈ post, x ∉ p) : ∀ p ∈ pre ++ pair :: post, x ∉ p := by
  intro p hp
  rcases List.mem_append.1 hp with h1 | h2
  · exact hpre p h1
  · rcases List.mem_cons.1 h2 with h3 | h4
    · subst h3
      exact hpair
    · exact hpost p h4

theorem getCode_first_code (base : List Char) (pre post : List (List Char))
    (pair : List Char) (hb : '?' ∉ base)
    (hq : ∀ p ∈ pre ++ pair :: post, '?' ∉ p)
    (ha : ∀ p ∈ pre ++ pair :: post, '&' ∉ p)
    (hpreKey : ∀ p ∈ pre, ¬((splitOnChar '=' p).headD [] = "code".data))
    (hk : (splitOnChar '=' pair).headD [] = "code".data) :
    getCodeFromLocation (base ++ '?' :: joinWith '&' (pre ++ pair :: post)) =
      some (String.mk (percentDecode ((splitOnChar '=' pair).getD 1 []))) := by
  have hsq : '?' ∉ joinWith '&' (pre ++ pair :: post) :=
    not_mem_joinWith '&' '?' _ (by decide) hq
  rw [getCode_two_parts base _ hb hsq,
    splitOnChar_joinWith '&' _ ha (by simp),
    findCodePair_append pre pair post hpreKey hk]

/-- C3 (amended): for every single-`?` URL whose query string contains one or
more `code` parameters — written as any run of non-`code` parameters `pre`,
then the first `code` pair, then arbitrary further parameters `post` — the
scan returns the value of that first occurrence, where the value is the text
between the pair's first `=` and its second `=` (if any), percent-decoded.
The three conjuncts cover the three shapes of the first `code` pair: a plain
value, a value containing a literal `=` (everything from the second `=` on is
dropped, not preserved), and a bare `code` with no `=` (empty value). -/
theorem c3_amended (base v w : List Char) (pre post : List (List Char))
    (hb : '?' ∉ base)
    (hpre : ∀ p ∈ pre, '?' ∉ p ∧ '&' ∉ p)
    (hpreKey : ∀ p ∈ pre, ¬((splitOnChar '=' p).headD [] = "code".data))
    (hpost : ∀ p ∈ post, '?' ∉ p ∧ '&' ∉ p)
    (hv1 : '?' ∉ v) (hv2 : '&' ∉ v) (hv3 : '=' ∉ v)
    (hw1 : '?' ∉ w) (hw2 : '&' ∉ w) :
    getCodeFromLocation (base ++ '?' ::
        joinWith '&' (pre ++ ("code".data ++ '=' :: v) :: post)) =
      some (String.mk (percentDecode v)) ∧
    getCodeFromLocation (base ++ '?' ::
        joinWith '&' (pre ++ ("code".data ++ '=' :: (v ++ '=' :: w)) :: post)) =
      some (String.mk (percentDecode v)) ∧
    getCodeFromLocation (base ++ '?' ::
        joinWith '&' (pre ++ "code".data :: post)) =
      some "" := by
  have hcq : '?' ∉ "code".data := by decide
  have hca : '&' ∉ "code".data := by decide
  have hce : '=' ∉ "code".data := by decide
  refine ⟨?_, ?_, ?_⟩
  · rw [getCode_first_code base pre post _ hb
      (all_not_mem_params '?' pre post _ (fun p hp => (hpre p hp).1)
        (not_mem_append_cons '?' '=' _ _ hcq (by decide) hv1)
        (fun p hp => (hpost p hp).1))
      (all_not_mem_params '&' pre post _ (fun p hp => (hpre p hp).2)
        (not_mem_append_cons '&' '=' _ _ hca (by decide) hv2)
        (fun p hp => (hpost p hp).2))
      hpreKey (by
        rw [splitOnChar_append '=' _ _ hce, splitOnChar_not_mem '=' v hv3]
        rfl)]
    rw [splitOnChar_append '=' _ _ hce, splitOnChar_not_mem '=' v hv3]
    rfl
  · have hvw1 : '?' ∉ (v ++ '=' :: w) :=
      not_mem_append_cons '?' '=' v w hv1 (by decide) hw1
    have hvw2 : '&' ∉ (v ++ '=' :: w) :=
      not_mem_append_cons '&' '=' v w hv2 (by decide) hw2
    rw [getCode_first_code base pre post _ hb
      (all_not_mem_params '?' pre post _ (fun p hp => (hpre p hp).1)
        (not_mem_append_cons '?' '=' _ _ hcq (by decide) hvw1)
        (fun p hp => (hpost p hp).1))
      (all_not_mem_params '&' pre post _ (fun p hp => (hpre p hp).2)
        (not_mem_append_cons '&' '=' _ _ hca (by decide) hvw2)
        (fun p hp => (hpost p hp).2))
      hpreKey (by
        rw [splitOnChar_append '=' _ _ hce, splitOnChar_append '=' v w hv3]
        rfl)]
    rw [splitOnChar_append '=' _ _ hce, splitOnChar_append '=' v w hv3]
    rfl
  · rw [getCode_first_code base pre post _ hb
      (all_not_mem_params '?' pre post _ (fun p hp => (hpre p hp).1) hcq
        (fun p hp => (hpost p hp).1))
      (all_not_mem_params '&' pre post _ (fun p hp => (hpre p hp).2) hca
        (fun p hp => (hpost p hp).2))
      hpreKey (by
        rw [splitOnChar_not_mem '=' _ hce]
        rfl)]
    rw [splitOnChar_not_mem '=' _ hce]
    rfl

/-- C3 witness: the amended theorem applied to a URL with an ordinary
parameter before the code, a literal `=` inside the value, and a second
`code` occurrence after it. -/
theorem c3_witness :
    getCodeFromLocation ("https://x/y?state=s1&code=AAA=zz&code=BBB".data) =
      some "AAA" := by
  have h := (c3_amended ("https://x/y".data) ("AAA".data) ("zz".data)
    ["state=s1".data] ["code=BBB".data]
    (by decide) (by decide) (by decide) (by decide) (by decide) (by decide)
    (by decide) (by decide) (by decide)).2.1
  have e1 : ("https://x/y".data ++ '?' ::
      joinWith '&' (["state=s1".data] ++
        ("code".data ++ '=' :: ("AAA".data ++ '=' :: "zz".data)) :: ["code=BBB".data]))
      = "https://x/y?state=s1&code=AAA=zz&code=BBB".data := by decide
  rw [e1] at h
  rw [h]
  decide

/-- C4: on every exchange the persisted record's `expires_at` is the issue
time plus `(expires_in + refreshSlack) * 1000` ms, the slack defaulting to 5;
in particular `expires_in = 3600` with the default slack gives `T + 3605000`. -/
theorem c4_expires_at :
    (∀ (props : AuthServiceProps) (now : Int) (a : AuthTokens) (st : Storage) (e : Int),
      a.expires_in = some e →
      (setAuthTokens props now a st).auth =
        some { a with expires_at := some (now + (e + props.refreshSlack.getD 5) * 1000) }) ∧
    (∀ (props : AuthServiceProps) (now : Int) (a : AuthTokens) (st : Storage),
      props.refreshSlack = none → a.expires_in = some 3600 →
      (setAuthTokens props now a st).auth =
        some { a with expires_at := some (now + 3605000) }) := by
  constructor
  · intro props now a st e he
    simp [setAuthTokens, he]
  · intro props now a st hs he
    simp [setAuthTokens, he, hs]

/-- C4 witness: a concrete record issued at T = 1000 ms. -/
theorem c4_witness :
    (setAuthTokens exProps 1000 { expires_in := some 3600 } {}).auth =
      some { expires_in := some 3600, expires_at := some 3606000 } := by
  have h := c4_expires_at.2 exProps 1000 { expires_in := some 3600 } {} rfl rfl
  rw [h]
  decide

/-! ### State-preservation lemmas for the exchange path -/

theorem armRefreshTimer_storage (rt : String) (d : Int) (s : JsState) :
    (armRefreshTimer rt d s).storage = s.storage := rfl

theorem startTimer_pkce (p : AuthServiceProps) (n : Int) (s : JsState) :
    (startTimer p n s).storage.pkce = s.storage.pkce := by
  simp only [startTimer]
  repeat' split
  all_goals rfl

theorem startTimer_preAuthUri (p : AuthServiceProps) (n : Int) (s : JsState) :
    (startTimer p n s).storage.preAuthUri = s.storage.preAuthUri := by
  simp only [startTimer]
  repeat' split
  all_goals rfl

theorem startTimer_auth_cases (p : AuthServiceProps) (n : Int) (s : JsState) :
    (startTimer p n s).storage.auth = s.storage.auth ∨
    (startTimer p n s).storage.auth = none := by
  simp only [startTimer]
  repeat' split
  all_goals first
    | exact Or.inl rfl
    | exact Or.inr rfl

theorem fetchTokenResume_pkce (props : AuthServiceProps) (now : Int)
    (pr : Option String) (ir : Bool) (resp : Response) (s : JsState) :
    (fetchTokenResume props now pr ir resp s).1.storage.pkce = none := by
  simp only [fetchTokenResume]
  split
  · rfl
  · split
    · rw [startTimer_pkce]
      simp [setAuthTokens]
    · rfl

theorem fetchTokenResume_preAuthUri (props : AuthServiceProps) (now : Int)
    (pr : Option String) (ir : Bool) (resp : Response) (s : JsState) :
    (fetchTokenResume props now pr ir resp s).1.storage.preAuthUri =
      s.storage.preAuthUri := by
  simp only [fetchTokenResume]
  split
  · rfl
  · split
    · rw [startTimer_preAuthUri]
      simp [setAuthTokens]
    · rfl

theorem fetchToken_shape (props : AuthServiceProps) (now : Int) (code : String)
    (ir : Bool) (net : Option Response) (s : JsState) :
    (∃ e, fetchToken props now code ir net s = (s, Except.error e)) ∨
    (∃ resp pr, net = some resp ∧
      fetchToken props now code ir net s = fetchTokenResume props now pr ir resp s) := by
  cases ir with
  | true =>
    cases net with
    | none => exact Or.inl ⟨FetchErr.networkError, by simp [fetchToken]⟩
    | some resp => exact Or.inr ⟨resp, some code, rfl, by simp [fetchToken]⟩
  | false =>
    cases hp : s.storage.pkce with
    | none => exact Or.inl ⟨FetchErr.pkceNotFound, by simp [fetchToken, hp]⟩
    | some pk =>
      cases net with
      | none => exact Or.inl ⟨FetchErr.networkError, by simp [fetchToken, hp]⟩
      | some resp => exact Or.inr ⟨resp, none, rfl, by simp [fetchToken, hp]⟩

theorem fetchToken_preAuthUri (props : AuthServiceProps) (now : Int)
    (code : String) (ir : Bool) (net : Option Response) (s : JsState) :
    (fetchToken props now code ir net s).1.storage.preAuthUri =
      s.storage.preAuthUri := by
  rcases fetchToken_shape props now code ir net s with ⟨e, he⟩ | ⟨resp, pr, hn, he⟩
  · rw [he]
  · rw [he, fetchTokenResume_preAuthUri]

theorem fetchToken_ok_pkce (props : AuthServiceProps) (now : Int) (code : String)
    (ir : Bool) (net : Option Response) (s : JsState) (a : AuthTokens)
    (h : (fetchToken props now code ir net s).2 = Except.ok a) :
    (fetchToken props now code ir net s).1.storage.pkce = none := by
  rcases fetchToken_shape props now code ir net s with ⟨e, he⟩ | ⟨resp, pr, hn, he⟩
  · rw [he] at h
    exact absurd h (by simp)
  · rw [he, fetchTokenResume_pkce]

theorem restoreUri_preAuthUri (s : JsState) :
    (restoreUri s).storage.preAuthUri = none := by
  simp only [restoreUri]
  split <;> rfl

theorem restoreUri_pkce (s : JsState) :
    (restoreUri s).storage.pkce = s.storage.pkce := by
  simp only [restoreUri]
  split <;> rfl

/-- C1, evaluated at the failing input: the token endpoint answers with a
non-success status (400) carrying a parsable error body, yet `fetchToken`
resolves successfully and persists a Token Record built from the error body —
the source never inspects `response.ok`/`response.status`, so no
`TokenExchangeFailed` is signalled and the record is persisted. -/
theorem c1_code_eval :
    exRespC1.status = 400 ∧
    (fetchToken exProps 0 "XYZ" false (some exRespC1) exStateC1).2 =
      Except.ok exErrBody ∧
    (fetchToken exProps 0 "XYZ" false (some exRespC1) exStateC1).1.storage.auth =
      some exErrBody ∧
    isAuthenticated (fetchToken exProps 0 "XYZ" false (some exRespC1) exStateC1).1 = true := by
  exact ⟨rfl, rfl, rfl, rfl⟩

/-- C2 counterexample: the exchange completes with a failure (unparsable
body); the constructor's catch deletes `pkce` and `auth` but leaves the
`preAuthUri` key in storage. -/
theorem c2_counterexample :
    getCodeFromLocation exStateC2.href = some "XYZ" ∧
    (constructorModel exProps 0 (some { status := 200, body := none })
        exStateC2).storage.preAuthUri = some "https://app/start" := by
  exact ⟨rfl, rfl⟩

/-- C2 (amended): when a code is found, the PKCE pair is deleted from storage
regardless of outcome, but the pre-auth URI is deleted only when the exchange
succeeds; on failure it is left untouched. -/
theorem c2_amended (props : AuthServiceProps) (now : Int) (net : Option Response)
    (s : JsState) (code : String) (hc : getCodeFromLocation s.href = some code) :
    (constructorModel props now net s).storage.pkce = none ∧
    (∀ a, (fetchToken props now code false net s).2 = Except.ok a →
      (constructorModel props now net s).storage.preAuthUri = none) ∧
    (∀ e, (fetchToken props now code false net s).2 = Except.error e →
      (constructorModel props now net s).storage.preAuthUri = s.storage.preAuthUri) := by
  simp only [constructorModel, hc]
  rcases hr : (fetchToken props now code false net s).2 with e | a
  · refine ⟨rfl, ?_, ?_⟩
    · intro a ha
      cases ha
    · intro e2 _
      show (fetchToken props now code false net s).1.storage.preAuthUri =
        s.storage.preAuthUri
      exact fetchToken_preAuthUri props now code false net s
  · refine ⟨?_, ?_, ?_⟩
    · show (restoreUri (fetchToken props now code false net s).1).storage.pkce = none
      rw [restoreUri_pkce]
      exact fetchToken_ok_pkce props now code false net s a hr
    · intro a2 _
      exact restoreUri_preAuthUri _
    · intro e he
      cases he

/-- C2 witness: the amended theorem at a concrete successful exchange — both
keys are gone afterwards. -/
theorem c2_witness :
    (constructorModel exProps 0 (some exRespC2ok) exStateC2).storage.pkce = none ∧
    (constructorModel exProps 0 (some exRespC2ok) exStateC2).storage.preAuthUri = none := by
  have h := c2_amended exProps 0 (some exRespC2ok) exStateC2 "XYZ" rfl
  exact ⟨h.1, h.2.1 exAuthC2 rfl⟩

theorem fetchTokenResume_auth_refresh (props : AuthServiceProps) (now : Int)
    (rt : String) (resp : Response) (s : JsState) (json : AuthTokens)
    (hb : resp.body = some json) (hrt : json.refresh_token = none)
    (a : AuthTokens)
    (ha : (fetchTokenResume props now (some rt) true resp s).1.storage.auth = some a) :
    a.refresh_token = some rt := by
  simp only [fetchTokenResume, hb, hrt, jsTruthyStr, Bool.not_false, Bool.and_self] at ha
  split at ha
  · rcases startTimer_auth_cases props now _ with hcs | hcs
    · rw [hcs] at ha
      simp only [setAuthTokens] at ha
      cases ha
      rfl
    · rw [hcs] at ha
      cases ha
  · simp only [setAuthTokens] at ha
    cases ha
    rfl

/-- C6: a refresh exchange whose response JSON lacks `refresh_token` persists
a Token Record whose `refresh_token` is the refresh token that was sent in
the request (carried forward from the payload). -/
theorem c6_carry_forward (props : AuthServiceProps) (now : Int) (rt : String)
    (resp : Response) (json : AuthTokens) (s : JsState) (a : AuthTokens)
    (hb : resp.body = some json) (hrt : json.refresh_token = none)
    (ha : (fetchToken props now rt true (some resp) s).1.storage.auth = some a) :
    a.refresh_token = some rt := by
  have heq : fetchToken props now rt true (some resp) s =
      fetchTokenResume props now (some rt) true resp s := by
    simp [fetchToken]
  rw [heq] at ha
  exact fetchTokenResume_auth_refresh props now rt resp s json hb hrt a ha

/-- C6 witness: carrying the sent token `RT` forward at a concrete refresh. -/
theorem c6_witness :
    (fetchToken exProps 0 "RT" true (some exRespC6)
        (initJsState {} [])).1.storage.auth = some exAuthC6 ∧
    exAuthC6.refresh_token = some "RT" :=
  ⟨rfl, c6_carry_forward exProps 0 "RT" exRespC6 { access_token := some "at2" }
    (initJsState {} []) exAuthC6 rfl rfl rfl⟩

/-- C7 counterexample: the stored record has `expires_at - now = -1000 <= 0`,
yet `startTimer` returns the state unchanged — the JS guard
`if (!expiresAt || ...)` treats the number 0 as missing, so the record is not
deleted and nothing is stripped. -/
theorem c7_counterexample :
    exAuthC7.expires_at.getD 0 - 1000 ≤ 0 ∧
    startTimer exProps 1000 exStateC7 = exStateC7 ∧
    (startTimer exProps 1000 exStateC7).storage.auth = some exAuthC7 := by
  refine ⟨by decide, rfl, rfl⟩

/-- C7 (amended): for a stored record with truthy (nonzero) `expires_at` and
truthy (nonempty) `refresh_token`, when `expires_at - now <= 0` the call
deletes the record and strips any stray code, and performs no scheduling and
no refresh exchange: the resulting state differs from the input only in the
`auth` key and the rewritten URL (timer fields untouched; `startTimer` makes
no network call by construction). -/
theorem c7_amended (props : AuthServiceProps) (now : Int) (s : JsState)
    (a : AuthTokens) (t : Int) (rt : String)
    (ha : s.storage.auth = some a) (he : a.expires_at = some t) (ht0 : t ≠ 0)
    (hrt : a.refresh_token = some rt) (hrt0 : rt ≠ "") (hle : t - now ≤ 0) :
    startTimer props now s =
      { s with storage := { s.storage with auth := none },
               href := removeCodeFromLocation s.href } := by
  have htr1 : jsTruthyInt (some t) = true := by
    simp [jsTruthyInt, ht0]
  have hee : rt.isEmpty = false := by
    cases hb : rt.isEmpty with
    | false => rfl
    | true => exact absurd ((String.isEmpty_iff rt).mp hb) hrt0
  have htr2 : jsTruthyStr (some rt) = true := by
    simp [jsTruthyStr, hee]
  have hauth : isAuthenticated s = true := by
    simp [isAuthenticated, ha]
  have hno : ¬ (t - now > 0) := by omega
  simp only [startTimer, hauth, Bool.not_true, Bool.false_eq_true, if_false, ha,
    htr1, htr2, Bool.or_self, he, hrt, Option.getD_some]
  rw [if_neg hno]

/-- C7 witness: the amended theorem at `now = 1000` against a record that
expired at 500. -/
theorem c7_witness :
    startTimer exProps 1000 exStateC7w =
      { exStateC7w with
          storage := { exStateC7w.storage with auth := none },
          href := removeCodeFromLocation exStateC7w.href } :=
  c7_amended exProps 1000 exStateC7w exAuthC7w 500 "r" rfl rfl (by decide) rfl
    (by decide) (by decide)

theorem armRefreshTimer_inv (rt : String) (d : Int) (s : JsState)
    (h : TimerInv s) : TimerInv (armRefreshTimer rt d s) := by
  obtain ⟨h1, h2, h3⟩ := h
  have hcl : (if jsTruthyNat s.timeout then
      s.pendingTimers.filter (fun e => e.1 != s.timeout.getD 0)
      else s.pendingTimers) = [] := by
    cases hp : s.pendingTimers with
    | nil => split <;> simp
    | cons e rest =>
      cases rest with
      | cons f rfs =>
        rw [hp] at h2
        simp at h2
      | nil =>
        obtain ⟨ht, h1e⟩ := h3 e (by rw [hp]; exact List.mem_singleton_self e)
        have htr : jsTruthyNat s.timeout = true := by
          rw [ht]
          simp [jsTruthyNat]
          omega
        rw [htr, if_pos rfl, ht]
        simp
  simp only [TimerInv, armRefreshTimer]
  refine ⟨by omega, ?_, ?_⟩
  · rw [hcl]
    simp
  · intro x hx
    rw [hcl] at hx
    simp only [List.nil_append, List.mem_singleton] at hx
    subst hx
    exact ⟨rfl, h1⟩

theorem foldl_arm_inv (ops : List (String × Int)) (s : JsState)
    (h : TimerInv s) : TimerInv (ops.foldl armStep s) := by
  induction ops generalizing s with
  | nil => exact h
  | cons p ps ih => exact ih _ (armRefreshTimer_inv p.1 p.2 s h)

/-- C8: along any sequence of `armRefreshTimer` calls on one instance from a
fresh page, at most one refresh timer is ever pending, and any pending timer
is the one the instance handle tracks — arming cancels the previous one
first. -/
theorem c8_single_timer (ops : List (String × Int)) (st : Storage)
    (href : List Char) :
    ((ops.foldl armStep (initJsState st href)).pendingTimers).length ≤ 1 ∧
    ((ops.foldl armStep (initJsState st href)).pendingTimers).all
      (fun e => (ops.foldl armStep (initJsState st href)).timeout == some e.1) = true := by
  have hinv : TimerInv (ops.foldl armStep (initJsState st href)) := by
    refine foldl_arm_inv ops _ ⟨?_, ?_, ?_⟩
    · simp [initJsState]
    · simp [initJsState]
    · simp [initJsState]
  obtain ⟨h1, h2, h3⟩ := hinv
  refine ⟨h2, ?_⟩
  rw [List.all_eq_true]
  intro e he
  have := (h3 e he).1
  simp [this]

/-- C9: `logout()` clears the `auth` key but does not cancel the pending
refresh timer (nor any in-flight exchange); in this execution the timer armed
before logout is still pending afterwards, later fires, the refresh exchange
succeeds, and the Token Record is re-populated after logout had cleared it. -/
theorem c9_logout_race :
    exArmedC9.pendingTimers = [(1, "rt0", 9000)] ∧
    exAfterLogoutC9.storage.auth = none ∧
    exAfterLogoutC9.pendingTimers = [(1, "rt0", 9000)] ∧
    exAfterLogoutC9.timeout = exArmedC9.timeout ∧
    exFinalC9.storage.auth =
      some { id_token := some "id1", access_token := some "at1",
             refresh_token := some "rt0", expires_in := some 3600,
             expires_at := some 3615000, token_type := some "Bearer" } := by
  exact ⟨rfl, rfl, rfl, rfl, rfl⟩

/-- C10: arriving with a `code` in the URL while no PKCE pair is stored makes
`fetchToken` reject with the pkce-not-found error before any network traffic
(the result does not depend on the network oracle at all), and the
constructor's failure handler then deletes any existing Token Record — a
stray code destroys a previously authenticated session. -/
theorem c10_stray_code (props : AuthServiceProps) (now : Int)
    (net net2 : Option Response) (s : JsState) (code : String)
    (hc : getCodeFromLocation s.href = some code)
    (hp : s.storage.pkce = none) :
    (fetchToken props now code false net s).2 = Except.error FetchErr.pkceNotFound ∧
    constructorModel props now net s = constructorModel props now net2 s ∧
    (constructorModel props now net s).storage.auth = none := by
  have hf : ∀ n : Option Response,
      fetchToken props now code false n s = (s, Except.error FetchErr.pkceNotFound) := by
    intro n
    simp [fetchToken, hp]
  refine ⟨by rw [hf net], ?_, ?_⟩
  · simp only [constructorModel, hc, hf net, hf net2]
  · simp only [constructorModel, hc, hf net]

/-- C10 witness: the concrete session above is destroyed. -/
theorem c10_witness :
    (constructorModel exProps 0 none exStateC10).storage.auth = none :=
  (c10_stray_code exProps 0 none (some { status := 500 }) exStateC10 "STRAY"
    rfl rfl).2.2
